import Mathlib

set_option maxRecDepth 16384

/-!
Verification of the split-payment fragment of the `agentgatepay-examples`
repository: the Amount Splitter, Transfer Encoder, Transaction Submitter,
Confirmation Poller and the mandate cache, shallowly embedded from the
Python sources (`examples/1_api_basic_payment.py`,
`examples/2a_api_buyer_agent.py`, `examples/2b_api_seller_agent.py`,
`utils/mandate_storage.py`).
-/

namespace AgentGatePay

/-- Python `int(q)` on a real number: truncation toward zero. -/
def pyInt (q : ℚ) : ℤ := if 0 ≤ q then ⌊q⌋ else ⌈q⌉

/-- The Amount Splitter, from `sign_blockchain_payment`
(`1_api_basic_payment.py` lines 216-219) and `execute_payment`
(`2a_api_buyer_agent.py` lines 355-361):

    commission_amount_usd = amount_usd * commission_rate
    merchant_amount_usd = amount_usd - commission_amount_usd
    merchant_amount_atomic = int(merchant_amount_usd * (10 ** DECIMALS))
    commission_amount_atomic = int(commission_amount_usd * (10 ** DECIMALS))

Amounts are modelled as exact rationals; the result is
(merchant_atomic, commission_atomic). -/
def splitAmounts (totalUsd commissionRate : ℚ) (decimals : ℕ) : ℤ × ℤ :=
  let commissionUsd := totalUsd * commissionRate
  let merchantUsd := totalUsd - commissionUsd
  (pyInt (merchantUsd * (10 : ℚ) ^ decimals),
   pyInt (commissionUsd * (10 : ℚ) ^ decimals))

lemma pyInt_of_nonneg {q : ℚ} (h : 0 ≤ q) : pyInt q = ⌊q⌋ := by
  simp [pyInt, h]

/-! ### Transfer Encoder (ERC-20 `transfer(address,uint256)` call data) -/

/-- Value of one hexadecimal digit, as accepted by Python's `bytes.fromhex`. -/
def hexVal (c : Char) : Option ℕ :=
  if '0' ≤ c ∧ c ≤ '9' then some (c.toNat - '0'.toNat)
  else if 'a' ≤ c ∧ c ≤ 'f' then some (c.toNat - 'a'.toNat + 10)
  else if 'A' ≤ c ∧ c ≤ 'F' then some (c.toNat - 'A'.toNat + 10)
  else none

/-- Python `s.replace('0x', '')`: removes every non-overlapping occurrence of
the substring `0x`, scanning left to right (`1_api_basic_payment.py` line 224). -/
def replace0x : List Char → List Char
  | [] => []
  | '0' :: 'x' :: rest => replace0x rest
  | c :: rest => c :: replace0x rest

/-- Python `bytes.fromhex`: fails on an odd-length string or a non-hex
character, otherwise pairs hex digits into bytes. -/
def bytesFromHex : List Char → Option (List ℕ)
  | [] => some []
  | [_] => none
  | c₁ :: c₂ :: rest => do
      let hi ← hexVal c₁
      let lo ← hexVal c₂
      let tail ← bytesFromHex rest
      pure ((16 * hi + lo) :: tail)

/-- Python `bs.rjust(32, b'\x00')`: left-pad with zero bytes up to 32 bytes;
longer inputs are returned unchanged (never truncated). -/
def rjust32 (bs : List ℕ) : List ℕ := List.replicate (32 - bs.length) 0 ++ bs

/-- Big-endian byte expansion, `k` bytes of `n`. -/
def natToBytesBE : ℕ → ℕ → List ℕ
  | 0, _ => []
  | k + 1, n => natToBytesBE k (n / 256) ++ [n % 256]

/-- Python `z.to_bytes(32, byteorder='big')`: raises `OverflowError` when the
integer is negative or does not fit in 32 bytes. -/
def intToBytes32 (z : ℤ) : Except String (List ℕ) :=
  if z < 0 then .error "OverflowError: negative int"
  else if z < 2 ^ 256 then .ok (natToBytesBE 32 z.toNat)
  else .error "OverflowError: int too big"

/-- `web3.keccak(text="transfer(address,uint256)")[:4]`, the fixed ERC-20
transfer selector bytes `a9 05 9c bb`. -/
def transferSelector : List ℕ := [169, 5, 156, 187]

/-- The Transfer Encoder of `1_api_basic_payment.py` lines 221-227:

    recipient_clean = recipient.replace('0x', '').lower()
    recipient_bytes = bytes.fromhex(recipient_clean).rjust(32, b'\x00')
    data = selector + recipient_bytes + amount_atomic.to_bytes(32, 'big')

A `ValueError` from `bytes.fromhex` propagates as an exception. -/
def encodeTransfer (recipient : String) (amountAtomic : ℤ) :
    Except String (List ℕ) :=
  match bytesFromHex ((replace0x recipient.data).map Char.toLower) with
  | none => .error "ValueError: non-hexadecimal number"
  | some addrBytes =>
    match intToBytes32 amountAtomic with
    | .error e => .error e
    | .ok amountBytes => .ok (transferSelector ++ rjust32 addrBytes ++ amountBytes)

/-- `eth_utils.to_bytes(hexstr=...)` as used via `self.web3.to_bytes(hexstr=r)`
in `2a_api_buyer_agent.py` lines 376 and 396: strips a leading `0x`, prepends a
`0` nibble when the full string has odd length, then `bytes.fromhex`. -/
def web3ToBytes (l : List Char) : Option (List ℕ) :=
  let stripped := match l with
    | '0' :: 'x' :: rest => rest
    | other => other
  bytesFromHex (if l.length % 2 = 1 then '0' :: stripped else stripped)

/-! ### Transaction Submitter -/

/-- External calls made while executing a payment, in program order. -/
inductive NetEvent
  | fetchCommissionConfig
  | rpcGetTransactionCount
  | rpcGasPrice
  | sendRawTransaction
  | waitForReceipt
  deriving Repr, DecidableEq

/-- The transaction dict built by both submitters. -/
structure SignedTx where
  nonce : ℕ
  toAddr : String  -- the dict key is named to in the source
  value : ℕ
  gas : ℕ
  gasPrice : ℕ
  data : List ℕ
  chainId : ℕ
  deriving Repr, DecidableEq

/-- Result of `get_commission_config()` / `self.get_commission_config()`. -/
structure CommissionConfig where
  commission_address : String
  commission_rate : ℚ

/-- `USDC_CONTRACT_BASE` (`1_api_basic_payment.py` line 81). -/
def usdcContractBase : String := "0x833589fCD6eDb6E08f4c7C32D4f71b54bdA02913"

/-- `sign_blockchain_payment` of `1_api_basic_payment.py` lines 198-276,
from the commission-config fetch to the two broadcasts. External reads are
parameters: `cfg` is what `get_commission_config()` returned, `nonceOracle i`
the result of the (i+1)-th `web3.eth.get_transaction_count` call, `gasPrice`
the gas price. Returns the network calls performed, in order, and either the
two transactions (merchant first) or the error raised. No amount validation
appears anywhere in the source. -/
def signBlockchainPayment (cfg : Option CommissionConfig) (nonceOracle : ℕ → ℕ)
    (gasPrice : ℕ) (amountUsd : ℚ) (recipient : String) :
    List NetEvent × Except String (SignedTx × SignedTx) :=
  match cfg with
  | none => ([.fetchCommissionConfig], .error "Error: Failed to fetch commission config")
  | some c =>
    let s := splitAmounts amountUsd c.commission_rate 6
    match encodeTransfer recipient s.1 with
    | .error e => ([.fetchCommissionConfig], .error ("Payment failed: " ++ e))
    | .ok merchantData =>
      let merchantTx : SignedTx :=
        { nonce := nonceOracle 0, toAddr := usdcContractBase, value := 0, gas := 100000,
          gasPrice := gasPrice, data := merchantData, chainId := 8453 }
      let ev₁ : List NetEvent :=
        [.fetchCommissionConfig, .rpcGetTransactionCount, .rpcGasPrice,
         .sendRawTransaction, .waitForReceipt]
      match encodeTransfer c.commission_address s.2 with
      | .error e => (ev₁, .error ("Payment failed: " ++ e))
      | .ok commissionData =>
        let commissionTx : SignedTx :=
          { nonce := nonceOracle 1, toAddr := usdcContractBase, value := 0, gas := 100000,
            gasPrice := gasPrice, data := commissionData, chainId := 8453 }
        (ev₁ ++ [.rpcGetTransactionCount, .rpcGasPrice, .sendRawTransaction, .waitForReceipt],
         .ok (merchantTx, commissionTx))

/-- `execute_payment` of `2a_api_buyer_agent.py` lines 334-411, from the
commission-config fetch to the two broadcasts. The commission rate comes from
the payment request; the config supplies the commission address. The nonce is
read once (line 370) and the commission transaction uses `merchant_nonce + 1`
(line 400). -/
def executePayment (cfg : Option CommissionConfig) (nonceOracle : ℕ → ℕ)
    (gasPrice : ℕ) (decimals : ℕ) (tokenContract : String) (chainId : ℕ)
    (priceUsd commissionRate : ℚ) (recipient : String) :
    List NetEvent × Except String (SignedTx × SignedTx) :=
  match cfg with
  | none => ([.fetchCommissionConfig], .error "Error: Failed to fetch commission configuration")
  | some c =>
    let s := splitAmounts priceUsd commissionRate decimals
    let merchantNonce := nonceOracle 0
    match web3ToBytes recipient.data, intToBytes32 s.1 with
    | none, _ => ([.fetchCommissionConfig, .rpcGetTransactionCount],
                  .error "Resource request error: ValueError")
    | some _, .error e => ([.fetchCommissionConfig, .rpcGetTransactionCount],
                  .error ("Resource request error: " ++ e))
    | some recipientBytes, .ok merchantAmountBytes =>
      let merchantData := transferSelector ++ rjust32 recipientBytes ++ merchantAmountBytes
      let merchantTx : SignedTx :=
        { nonce := merchantNonce, toAddr := tokenContract, value := 0, gas := 100000,
          gasPrice := gasPrice, data := merchantData, chainId := chainId }
      let ev₁ : List NetEvent :=
        [.fetchCommissionConfig, .rpcGetTransactionCount, .rpcGasPrice, .sendRawTransaction]
      match web3ToBytes c.commission_address.data, intToBytes32 s.2 with
      | none, _ => (ev₁, .error "Resource request error: ValueError")
      | some _, .error e => (ev₁, .error ("Resource request error: " ++ e))
      | some commissionBytes, .ok commissionAmountBytes =>
        let commissionData := transferSelector ++ rjust32 commissionBytes ++ commissionAmountBytes
        let commissionTx : SignedTx :=
          { nonce := merchantNonce + 1, toAddr := tokenContract, value := 0, gas := 100000,
            gasPrice := gasPrice, data := commissionData, chainId := chainId }
        (ev₁ ++ [.rpcGasPrice, .sendRawTransaction],
         .ok (merchantTx, commissionTx))

/-! ### Confirmation Poller (`2b_api_seller_agent.py`, `handle_resource_request`) -/

/-- One JSON response of `self.agentpay.payments.verify`; a missing key is
`none` (`verification.get(...)`), a missing `verified` key behaves as `false`. -/
structure VerifyResponse where
  verified : Bool
  status : Option String
  error : Option String
  amount_usd : Option ℚ
  deriving Repr, DecidableEq

/-- State left by the retry loop of lines 403-442: the last response stored in
`verification`, the `last_error` string, every `time.sleep` duration in order,
and how many times `verify` was called. -/
structure PollResult where
  verification : Option VerifyResponse
  lastError : Option String
  sleeps : List ℚ
  calls : ℕ
  deriving Repr, DecidableEq

/-- The body of `for attempt in range(max_retries)` (lines 406-442).
`verify a` is what the SDK call returned on attempt `a` (`.error` = the SDK
raised). Branches in source order: verified → break; status `pending` and not
the last attempt → sleep, shrink the delay for payments ≥ $1 by
`min(delay * 1.5, 10)`; error `Payment not found` and not the last attempt →
sleep; otherwise record `last_error` and break. An exception sleeps and
retries unless it was the last attempt. -/
def pollGo (verify : ℕ → Except String VerifyResponse) (maxRetries : ℕ)
    (priceUsd : ℚ) :
    List ℕ → ℚ → Option VerifyResponse → Option String → List ℚ → ℕ → PollResult
  | [], _, ver, err, sleeps, calls => ⟨ver, err, sleeps, calls⟩
  | attempt :: rest, delay, ver, err, sleeps, calls =>
    match verify attempt with
    | .ok v =>
      if v.verified then ⟨some v, err, sleeps, calls + 1⟩
      else if v.status = some "pending" ∧ attempt < maxRetries - 1 then
        pollGo verify maxRetries priceUsd rest
          (if 1 ≤ priceUsd then min (delay * 3 / 2) 10 else delay)
          (some v) err (sleeps ++ [delay]) (calls + 1)
      else if v.error = some "Payment not found" ∧ attempt < maxRetries - 1 then
        pollGo verify maxRetries priceUsd rest delay (some v) err
          (sleeps ++ [delay]) (calls + 1)
      else
        ⟨some v, some (v.error.getD "Unknown verification error"), sleeps, calls + 1⟩
    | .error e =>
      if attempt < maxRetries - 1 then
        pollGo verify maxRetries priceUsd rest delay ver (some e)
          (sleeps ++ [delay]) (calls + 1)
      else ⟨ver, some e, sleeps, calls + 1⟩

/-- The whole retry loop, started with `verification = None`,
`last_error = None` and the configured initial `retry_delay`. -/
def pollVerification (verify : ℕ → Except String VerifyResponse)
    (maxRetries : ℕ) (retryDelay priceUsd : ℚ) : PollResult :=
  pollGo verify maxRetries priceUsd (List.range maxRetries) retryDelay none none [] 0

/-- Retry budget chosen by payment size (lines 392-401): `max_retries = 6`
under $1, `12` at $1 and above. -/
def maxRetriesFor (priceUsd : ℚ) : ℕ := if priceUsd < 1 then 6 else 12

/-- `retry_delay` chosen by payment size: 10 seconds in both branches
(lines 394 and 399). -/
def retryDelayFor (priceUsd : ℚ) : ℚ := if priceUsd < 1 then 10 else 10

/-- `COMMISSION_RATE = 0.005` (`2b_api_seller_agent.py` line 52). -/
def sellerCommissionRate : ℚ := 5 / 1000

/-- The decision after the loop (lines 444-495): 403 when nothing verified,
403 when `float(verification.get('amount_usd', 0))` differs from
`price_usd * (1 - COMMISSION_RATE)` by more than $0.01, else 200 with the
resource delivered. -/
def requestStatus (priceUsd commissionRate : ℚ) (r : PollResult) : ℕ :=
  match r.verification with
  | none => 403
  | some v =>
    if !v.verified then 403
    else
      if |v.amount_usd.getD 0 - priceUsd * (1 - commissionRate)| > 1 / 100 then 403
      else 200

/-- Verification phase of `handle_resource_request` for a priced resource
with a well-formed payment header: pick the tier, run the loop, decide. -/
def handleResourceRequest (priceUsd : ℚ)
    (verify : ℕ → Except String VerifyResponse) : ℕ :=
  requestStatus priceUsd sellerCommissionRate
    (pollVerification verify (maxRetriesFor priceUsd) (retryDelayFor priceUsd) priceUsd)

/-- Whether an SDK outcome counts as a successful verification. -/
def respVerified : Except String VerifyResponse → Bool
  | .ok v => v.verified
  | .error _ => false

/-! ### Mandate cache (`utils/mandate_storage.py`) -/

/-- One value of the `~/.agentgatepay_mandates.json` map, as written by
`save_mandate` (lines 14-20); `none` = key absent. -/
structure MandateEntry where
  mandate_token : Option String
  expires_at : Option ℚ
  budget_remaining : Option ℚ
  budget_usd : Option ℚ
  saved_at : Option String
  deriving Repr, DecidableEq

/-- The cache file content: agent identity → entry. -/
abbrev MandateStorage := List (String × MandateEntry)

/-- `del storage[agent_id]` followed by `_save_storage`. -/
def eraseMandate (storage : MandateStorage) (agentId : String) : MandateStorage :=
  storage.filter (fun kv => kv.1 ≠ agentId)

/-- `get_mandate` (`mandate_storage.py` lines 23-37): missing key → `None`;
otherwise compare `datetime.now().timestamp()` with
`mandate.get('expires_at', 0)`; strictly newer `now` deletes the entry,
saves the storage and returns `None`, else the entry is returned and the
file untouched. Returns (result, cache file content afterwards). -/
def get_mandate (now : ℚ) (storage : MandateStorage) (agentId : String) :
    Option MandateEntry × MandateStorage :=
  match storage.lookup agentId with
  | none => (none, storage)
  | some m =>
    if now > m.expires_at.getD 0 then (none, eraseMandate storage agentId)
    else (some m, storage)

/-! ### Concrete test data and helper lemmas -/

/-- A well-formed 20-byte recipient address. -/
def testAddress : String := "0xaaaaaaaaaaaaaaaaaaaaaaaaaaaaaaaaaaaaaaaa"

/-- A 19-byte hex string: 38 hex characters after the prefix, one byte short
of a valid address. -/
def shortAddress : String := "0xaaaaaaaaaaaaaaaaaaaaaaaaaaaaaaaaaaaaaa"

/-- The (merchant nonce, commission nonce) pair of a successful submission. -/
def nonces : Except String (SignedTx × SignedTx) → Option (ℕ × ℕ)
  | .ok (m, c) => some (m.nonce, c.nonce)
  | .error _ => none

lemma split_ten : splitAmounts 10 (1/200) 6 = (9950000, 50000) := by
  simp only [splitAmounts, pyInt]
  norm_num

lemma split_zero : splitAmounts 0 (1/200) 6 = (0, 0) := by
  simp only [splitAmounts, pyInt]
  norm_num

/-- C1: for total_usd > 0, commission_rate ∈ [0,1) and any decimals, the two
Amount Splitter outputs sum to within 1 unit of ⌊total_usd · 10^decimals⌋. -/
theorem splitAmounts_sum_within_one (totalUsd commissionRate : ℚ) (decimals : ℕ)
    (hpos : 0 < totalUsd) (hr0 : 0 ≤ commissionRate) (hr1 : commissionRate < 1) :
    |((splitAmounts totalUsd commissionRate decimals).1 +
      (splitAmounts totalUsd commissionRate decimals).2) -
      ⌊totalUsd * (10 : ℚ) ^ decimals⌋| ≤ 1 := by
  have hpow : (0 : ℚ) < (10 : ℚ) ^ decimals := by positivity
  set a : ℚ := (totalUsd - totalUsd * commissionRate) * (10 : ℚ) ^ decimals with ha
  set b : ℚ := (totalUsd * commissionRate) * (10 : ℚ) ^ decimals with hb
  have hbnn : 0 ≤ b := by
    have : 0 ≤ totalUsd * commissionRate := mul_nonneg hpos.le hr0
    exact mul_nonneg this hpow.le
  have hann : 0 ≤ a := by
    have h1 : 0 ≤ totalUsd - totalUsd * commissionRate := by nlinarith
    exact mul_nonneg h1 hpow.le
  have hsum : a + b = totalUsd * (10 : ℚ) ^ decimals := by ring
  have hfst : (splitAmounts totalUsd commissionRate decimals).1 = ⌊a⌋ := by
    simp only [splitAmounts]
    exact pyInt_of_nonneg hann
  have hsnd : (splitAmounts totalUsd commissionRate decimals).2 = ⌊b⌋ := by
    simp only [splitAmounts]
    exact pyInt_of_nonneg hbnn
  rw [hfst, hsnd, ← hsum]
  have hlow : ⌊a⌋ + ⌊b⌋ ≤ ⌊a + b⌋ := by
    apply Int.le_floor.mpr
    push_cast
    exact add_le_add (Int.floor_le a) (Int.floor_le b)
  have hhigh : ⌊a + b⌋ ≤ ⌊a⌋ + ⌊b⌋ + 1 := by
    have h2 : a + b < (⌊a⌋ + ⌊b⌋ + 2 : ℤ) := by
      push_cast
      have := Int.lt_floor_add_one a
      have := Int.lt_floor_add_one b
      linarith
    have := Int.floor_lt.mpr h2
    omega
  rw [abs_le]
  constructor <;> [linarith [hhigh]; linarith [hlow]]

/-- Witness for C1 at totalUsd = 10, rate = 1/200, decimals = 6. -/
theorem splitAmounts_sum_within_one_witness :
    |((splitAmounts 10 (1/200) 6).1 + (splitAmounts 10 (1/200) 6).2) -
      ⌊(10 : ℚ) * (10 : ℚ) ^ (6 : ℕ)⌋| ≤ 1 :=
  splitAmounts_sum_within_one 10 (1/200) 6 (by norm_num) (by norm_num) (by norm_num)

/-- C3: the worked scenario total = 10.00 USD, rate = 0.005, decimals = 6
produces merchant_atomic = 9950000 and commission_atomic = 50000. -/
theorem splitAmounts_scenario_ten_usd :
    splitAmounts 10 (5/1000) 6 = (9950000, 50000) := by
  simp only [splitAmounts, pyInt]
  norm_num

/-- C2 counterexample: in `sign_blockchain_payment` (`1_api_basic_payment.py`)
the sender nonce is read twice — once per leg — and when the node still
reports 7 at the second read (the merchant transaction not yet mined), the
commission transaction carries nonce 7, not 8. -/
theorem nonce_read_twice_counterexample :
    nonces (signBlockchainPayment (some ⟨testAddress, 1/200⟩) (fun _ => 7) 1 10
        testAddress).2 = some (7, 7) ∧
    (signBlockchainPayment (some ⟨testAddress, 1/200⟩) (fun _ => 7) 1 10
        testAddress).1.count NetEvent.rpcGetTransactionCount = 2 := by
  constructor <;>
  · simp only [signBlockchainPayment, split_ten]
    decide

/-- C2 amended: `execute_payment` (`2a_api_buyer_agent.py`) reads the nonce
exactly once and assigns N to the merchant leg and N+1 to the commission leg;
`sign_blockchain_payment` (`1_api_basic_payment.py`) reads the nonce once per
leg — twice per payment — and the commission leg carries whatever the second
read returns. -/
theorem submitter_nonce_assignment
    (cc : CommissionConfig) (oracle : ℕ → ℕ) (gas decimals : ℕ)
    (tok : String) (cid : ℕ) (price rate amount : ℚ) (recip recip' : String)
    (hok2a : (executePayment (some cc) oracle gas decimals tok cid price rate
        recip).2.isOk = true)
    (hok1 : (signBlockchainPayment (some cc) oracle gas amount recip').2.isOk = true) :
    nonces (executePayment (some cc) oracle gas decimals tok cid price rate recip).2 =
      some (oracle 0, oracle 0 + 1) ∧
    (executePayment (some cc) oracle gas decimals tok cid price rate recip).1.count
      NetEvent.rpcGetTransactionCount = 1 ∧
    nonces (signBlockchainPayment (some cc) oracle gas amount recip').2 =
      some (oracle 0, oracle 1) ∧
    (signBlockchainPayment (some cc) oracle gas amount recip').1.count
      NetEvent.rpcGetTransactionCount = 2 := by
  refine ⟨?_, ?_, ?_, ?_⟩
  · revert hok2a
    simp only [executePayment]
    split
    · intro h; simp [Except.isOk, Except.toBool] at h
    · intro h; simp [Except.isOk, Except.toBool] at h
    · split
      · intro h; simp [Except.isOk, Except.toBool] at h
      · intro h; simp [Except.isOk, Except.toBool] at h
      · intro _; simp [nonces]
  · simp only [executePayment]
    split
    · rfl
    · rfl
    · split <;> rfl
  · revert hok1
    simp only [signBlockchainPayment]
    split
    · intro h; simp [Except.isOk, Except.toBool] at h
    · split
      · intro h; simp [Except.isOk, Except.toBool] at h
      · intro _; simp [nonces]
  · revert hok1
    simp only [signBlockchainPayment]
    split
    · intro h; simp [Except.isOk, Except.toBool] at h
    · split
      · intro h; simp [Except.isOk, Except.toBool] at h
      · intro _; rfl

/-- Witness for C2 at a concrete configuration and the identity nonce oracle. -/
theorem submitter_nonce_assignment_witness :
    nonces (executePayment (some ⟨testAddress, 1/200⟩) (fun i => i) 1 6
        usdcContractBase 8453 10 (1/200) testAddress).2 = some (0, 1) ∧
    nonces (signBlockchainPayment (some ⟨testAddress, 1/200⟩) (fun i => i) 1 10
        testAddress).2 = some (0, 1) := by
  have h := submitter_nonce_assignment ⟨testAddress, 1/200⟩ (fun i => i) 1 6
    usdcContractBase 8453 10 (1/200) 10 testAddress testAddress
    (by simp only [executePayment, split_ten]; decide)
    (by simp only [signBlockchainPayment, split_ten]; decide)
  exact ⟨h.1, h.2.2.1⟩

/-- C7 counterexample: for total_usd = 0 (which the claim says must fail with
InvalidAmount before any network call) `sign_blockchain_payment` performs the
commission-config fetch, broadcasts both zero-amount transfers, and succeeds:
no error of any kind is raised. -/
theorem no_invalid_amount_counterexample :
    (signBlockchainPayment (some ⟨testAddress, 1/200⟩) (fun i => i) 1 0
        testAddress).1.count NetEvent.sendRawTransaction = 2 ∧
    (signBlockchainPayment (some ⟨testAddress, 1/200⟩) (fun i => i) 1 0
        testAddress).2.isOk = true := by
  constructor <;>
  · simp only [signBlockchainPayment, split_zero]
    decide

/-- C7 amended: the payment operation validates nothing: its first action is
always the commission-config network fetch, for every total and rate, and a
total of 0 USD proceeds all the way to two successful broadcasts; no
InvalidAmount error exists in the code. -/
theorem submitter_no_amount_validation (cfg : Option CommissionConfig)
    (oracle : ℕ → ℕ) (gas : ℕ) (amount : ℚ) (recipient : String) :
    ((signBlockchainPayment cfg oracle gas amount recipient).1).head? =
      some NetEvent.fetchCommissionConfig ∧
    (signBlockchainPayment (some ⟨testAddress, 1/200⟩) oracle gas 0
      testAddress).2.isOk = true := by
  constructor
  · rcases cfg with _ | cc
    · rfl
    · simp only [signBlockchainPayment]
      split
      · rfl
      · split <;> rfl
  · simp only [signBlockchainPayment, split_zero]
    rfl

/-- C8 counterexample: a 19-byte recipient (38 hex chars) is not rejected:
the encoder silently left-pads it to 32 bytes and returns a call payload. -/
theorem encoder_pads_short_address_counterexample :
    encodeTransfer shortAddress 100 =
      .ok (transferSelector ++ (List.replicate 13 0 ++ List.replicate 19 170) ++
           natToBytesBE 32 100) := by rfl

/-- C8 amended: the encoder performs no 20-byte length check: whenever the
cleaned recipient parses as hex bytes — of any byte count — and the amount
fits in 32 bytes, it returns the padded payload; only a non-hex character or
an odd-length hex string makes it fail, with a generic ValueError rather than
a typed InvalidAddress. -/
theorem encoder_no_length_check (recipient : String) (amountAtomic : ℤ)
    (bs : List ℕ)
    (hbs : bytesFromHex ((replace0x recipient.data).map Char.toLower) = some bs)
    (h0 : 0 ≤ amountAtomic) (hlt : amountAtomic < 2 ^ 256) :
    encodeTransfer recipient amountAtomic =
      .ok (transferSelector ++ rjust32 bs ++ natToBytesBE 32 amountAtomic.toNat) := by
  unfold encodeTransfer
  rw [hbs]
  unfold intToBytes32
  rw [if_neg (not_lt.mpr h0), if_pos hlt]

/-- Witness for C8 at the 19-byte recipient. -/
theorem encoder_no_length_check_witness :
    encodeTransfer shortAddress 100 =
      .ok (transferSelector ++ rjust32 (List.replicate 19 170) ++
           natToBytesBE 32 (100 : ℤ).toNat) :=
  encoder_no_length_check shortAddress 100 (List.replicate 19 170)
    (by decide) (by decide) (by decide)

/-! ### Poller lemmas -/

lemma pollGo_calls_le (verify : ℕ → Except String VerifyResponse) (mr : ℕ) (p : ℚ)
    (l : List ℕ) :
    ∀ delay ver err sleeps calls,
      (pollGo verify mr p l delay ver err sleeps calls).calls ≤ calls + l.length := by
  induction l with
  | nil => intro delay ver err sleeps calls; simp [pollGo]
  | cons a rest ih =>
    intro delay ver err sleeps calls
    simp only [pollGo, List.length_cons]
    cases hv : verify a with
    | ok v =>
      by_cases hb : v.verified = true
      · simp only [hb, if_true]
        omega
      · simp only [if_neg hb]
        by_cases hp : (v.status = some "pending" ∧ a < mr - 1)
        · simp only [if_pos hp]
          have := ih (if 1 ≤ p then min (delay * 3 / 2) 10 else delay)
            (some v) err (sleeps ++ [delay]) (calls + 1)
          omega
        · simp only [if_neg hp]
          by_cases hn : (v.error = some "Payment not found" ∧ a < mr - 1)
          · simp only [if_pos hn]
            have := ih delay (some v) err (sleeps ++ [delay]) (calls + 1)
            omega
          · simp only [if_neg hn]
            omega
    | error e =>
      by_cases hl : a < mr - 1
      · simp only [if_pos hl]
        have := ih delay ver (some e) (sleeps ++ [delay]) (calls + 1)
        omega
      · simp only [if_neg hl]
        omega

lemma pollGo_not_verified (verify : ℕ → Except String VerifyResponse) (mr : ℕ)
    (p : ℚ) (l : List ℕ) :
    ∀ delay ver err sleeps calls,
      (∀ a ∈ l, respVerified (verify a) = false) →
      (∀ v, ver = some v → v.verified = false) →
      ∀ v, (pollGo verify mr p l delay ver err sleeps calls).verification = some v →
        v.verified = false := by
  induction l with
  | nil =>
    intro delay ver err sleeps calls _ hver v hv
    exact hver v hv
  | cons a rest ih =>
    intro delay ver err sleeps calls hall hver v hv
    have ha : respVerified (verify a) = false := hall a (List.mem_cons_self a rest)
    have hrest : ∀ b ∈ rest, respVerified (verify b) = false :=
      fun b hb => hall b (List.mem_cons_of_mem a hb)
    simp only [pollGo] at hv
    cases hvf : verify a with
    | ok v₀ =>
      rw [hvf] at hv ha
      simp only [respVerified] at ha
      simp only [ha, Bool.false_eq_true, if_false] at hv
      by_cases hp : (v₀.status = some "pending" ∧ a < mr - 1)
      · rw [if_pos hp] at hv
        exact ih _ (some v₀) err _ _ hrest
          (fun w hw => by injection hw with h; rw [← h]; exact ha) v hv
      · rw [if_neg hp] at hv
        by_cases hn : (v₀.error = some "Payment not found" ∧ a < mr - 1)
        · rw [if_pos hn] at hv
          exact ih _ (some v₀) err _ _ hrest
            (fun w hw => by injection hw with h; rw [← h]; exact ha) v hv
        · rw [if_neg hn] at hv
          simp only at hv
          injection hv with h
          rw [← h]; exact ha
    | error e =>
      simp only [hvf] at hv
      by_cases hl : a < mr - 1
      · rw [if_pos hl] at hv
        exact ih _ ver (some e) _ _ hrest hver v hv
      · rw [if_neg hl] at hv
        simp only at hv
        exact hver v hv

lemma pollGo_sleeps_ten (verify : ℕ → Except String VerifyResponse) (mr : ℕ)
    (p : ℚ) (l : List ℕ) :
    ∀ ver err sleeps calls,
      (∀ s ∈ sleeps, s = (10 : ℚ)) →
      ∀ s ∈ (pollGo verify mr p l 10 ver err sleeps calls).sleeps, s = 10 := by
  induction l with
  | nil =>
    intro ver err sleeps calls hsl
    simpa [pollGo] using hsl
  | cons a rest ih =>
    intro ver err sleeps calls hsl
    have hext : ∀ s ∈ sleeps ++ [(10 : ℚ)], s = 10 := by
      intro s hs
      rcases List.mem_append.mp hs with h | h
      · exact hsl s h
      · simpa using h
    simp only [pollGo]
    cases hvf : verify a with
    | ok v =>
      by_cases hb : v.verified = true
      · simp only [hb, if_true]
        exact hsl
      · simp only [if_neg hb]
        by_cases hp : (v.status = some "pending" ∧ a < mr - 1)
        · simp only [if_pos hp]
          have h10 : (if (1 : ℚ) ≤ p then min ((10 : ℚ) * 3 / 2) 10 else 10) = 10 := by
            split
            · norm_num
            · rfl
          rw [h10]
          exact ih (some v) err (sleeps ++ [10]) (calls + 1) hext
        · simp only [if_neg hp]
          by_cases hn : (v.error = some "Payment not found" ∧ a < mr - 1)
          · simp only [if_pos hn]
            exact ih (some v) err (sleeps ++ [10]) (calls + 1) hext
          · simp only [if_neg hn]
            exact hsl
    | error e =>
      by_cases hl : a < mr - 1
      · simp only [if_pos hl]
        exact ih ver (some e) (sleeps ++ [10]) (calls + 1) hext
      · simp only [if_neg hl]
        exact hsl

lemma requestStatus_of_not_verified (p cr : ℚ) (r : PollResult)
    (h : ∀ v, r.verification = some v → v.verified = false) :
    requestStatus p cr r = 403 := by
  unfold requestStatus
  cases hv : r.verification with
  | none => rfl
  | some v =>
    have := h v hv
    simp [this]

/-- C4: for every sequence of verifier responses, the poller makes at most
maxRetries verification attempts, and when no attempt comes back verified the
request is rejected with the 403 failure response; the loop always
terminates. -/
theorem poller_terminates_and_fails
    (verify : ℕ → Except String VerifyResponse) (maxRetries : ℕ)
    (retryDelay priceUsd commissionRate : ℚ) :
    (pollVerification verify maxRetries retryDelay priceUsd).calls ≤ maxRetries ∧
    ((∀ i, i < maxRetries → respVerified (verify i) = false) →
      requestStatus priceUsd commissionRate
        (pollVerification verify maxRetries retryDelay priceUsd) = 403) := by
  constructor
  · have h := pollGo_calls_le verify maxRetries priceUsd (List.range maxRetries)
      retryDelay none none [] 0
    simpa [pollVerification] using h
  · intro h
    apply requestStatus_of_not_verified
    apply pollGo_not_verified verify maxRetries priceUsd (List.range maxRetries)
      retryDelay none none [] 0
    · intro a ha
      exact h a (List.mem_range.mp ha)
    · intro v hv
      cases hv

/-- A verifier that always answers that the payment was not found. -/
def notFoundVerify : ℕ → Except String VerifyResponse :=
  fun _ => .ok ⟨false, none, some "Payment not found", none⟩

/-- Witness for C4 with maxRetries = 3 and a never-verifying verifier. -/
theorem poller_terminates_and_fails_witness :
    (pollVerification notFoundVerify 3 10 2).calls ≤ 3 ∧
    requestStatus 2 (5/1000) (pollVerification notFoundVerify 3 10 2) = 403 :=
  ⟨(poller_terminates_and_fails notFoundVerify 3 10 2 (5/1000)).1,
   (poller_terminates_and_fails notFoundVerify 3 10 2 (5/1000)).2 (by decide)⟩

/-- C5: the retry budget is 6 attempts below $1 and 12 attempts at $1 or
above, the configured delay is 10 seconds in both tiers, the loop never
exceeds the budget, and every sleep taken is exactly 10 seconds. -/
theorem poller_retry_tiers (priceUsd : ℚ)
    (verify : ℕ → Except String VerifyResponse) :
    (priceUsd < 1 → maxRetriesFor priceUsd = 6) ∧
    (1 ≤ priceUsd → maxRetriesFor priceUsd = 12) ∧
    retryDelayFor priceUsd = 10 ∧
    (pollVerification verify (maxRetriesFor priceUsd) (retryDelayFor priceUsd)
        priceUsd).calls ≤ maxRetriesFor priceUsd ∧
    (∀ s ∈ (pollVerification verify (maxRetriesFor priceUsd)
        (retryDelayFor priceUsd) priceUsd).sleeps, s = 10) := by
  have hd : retryDelayFor priceUsd = 10 := ite_self 10
  refine ⟨fun h => if_pos h, fun h => if_neg (not_lt.mpr h), hd, ?_, ?_⟩
  · have h := pollGo_calls_le verify (maxRetriesFor priceUsd) priceUsd
      (List.range (maxRetriesFor priceUsd)) (retryDelayFor priceUsd) none none [] 0
    simpa [pollVerification] using h
  · rw [hd]
    intro s hs
    refine pollGo_sleeps_ten verify (maxRetriesFor priceUsd) priceUsd
      (List.range (maxRetriesFor priceUsd)) none none [] 0 (by simp) s ?_
    simpa [pollVerification, hd] using hs

/-- Witness for C5 at prices 1/2 and 2. -/
theorem poller_retry_tiers_witness :
    maxRetriesFor (1/2) = 6 ∧ maxRetriesFor 2 = 12 ∧ retryDelayFor (1/2) = 10 :=
  ⟨(poller_retry_tiers (1/2) notFoundVerify).1 (by norm_num),
   (poller_retry_tiers 2 notFoundVerify).2.1 (by norm_num),
   (poller_retry_tiers (1/2) notFoundVerify).2.2.1⟩

/-- The C6 scenario verifier: not-found on attempts 1-5 (indexes 0-4),
verified and confirmed on attempt 6. -/
def c6Verify : ℕ → Except String VerifyResponse := fun i =>
  if i < 5 then .ok ⟨false, none, some "Payment not found", none⟩
  else .ok ⟨true, some "confirmed", none, none⟩

/-- 0.4975 USD, the expected merchant amount for a 0.50 USD resource at the
0.5% commission rate, given in lowest terms. -/
def c6Amount : ℚ := ⟨199, 400, by norm_num, by norm_num⟩

lemma c6Amount_eq : c6Amount = 199 / 400 := by
  have h := Rat.num_div_den c6Amount
  rw [show c6Amount.num = 199 from rfl, show c6Amount.den = 400 from rfl] at h
  push_cast at h
  exact h.symm

/-- The same scenario when the verified response also carries the amount
0.4975 USD, the expected merchant amount for a 0.50 USD resource. -/
def c6VerifyWithAmount : ℕ → Except String VerifyResponse := fun i =>
  if i < 5 then .ok ⟨false, none, some "Payment not found", none⟩
  else .ok ⟨true, some "confirmed", none, some c6Amount⟩

/-- C6 counterexample: with the literal scenario responses — the verified
response has no amount_usd key — a 0.50 USD resource is not delivered: the
handler answers 403 (amount mismatch, paid read as 0), not 200. -/
theorem poller_scenario_no_delivery_counterexample :
    handleResourceRequest (1/2) c6Verify = 403 ∧ (403 : ℕ) ≠ 200 := by
  constructor
  · have hm : maxRetriesFor (1/2) = 6 := by norm_num [maxRetriesFor]
    have hd : retryDelayFor (1/2) = 10 := by norm_num [retryDelayFor]
    have hp : pollVerification c6Verify 6 10 (1/2) =
        ⟨some ⟨true, some "confirmed", none, none⟩, none, [10, 10, 10, 10, 10], 6⟩ := by
      decide
    simp only [handleResourceRequest, hm, hd, hp, requestStatus,
      sellerCommissionRate, Option.getD_none, Bool.not_true]
    rw [if_neg (by simp),
      if_pos (by rw [zero_sub, abs_neg, abs_of_nonneg (by norm_num)]; norm_num)]
  · decide

/-- C6 amended: with the scenario responses the poller does break out with the
verified response on attempt 6 after sleeping 5 times 10 s = 50 s; the
resource is then delivered (200) only when the verified response also carries
an amount_usd matching price times (1 - COMMISSION_RATE) within one cent —
the literal response without amount_usd is refused with 403. -/
theorem poller_scenario_confirmed_after_five_sleeps :
    (pollVerification c6Verify 6 10 (1/2)).verification =
      some ⟨true, some "confirmed", none, none⟩ ∧
    (pollVerification c6Verify 6 10 (1/2)).sleeps = [10, 10, 10, 10, 10] ∧
    (pollVerification c6Verify 6 10 (1/2)).sleeps.sum = 50 ∧
    (pollVerification c6Verify 6 10 (1/2)).calls = 6 ∧
    handleResourceRequest (1/2) c6Verify = 403 ∧
    handleResourceRequest (1/2) c6VerifyWithAmount = 200 := by
  have hm : maxRetriesFor (1/2) = 6 := by norm_num [maxRetriesFor]
  have hd : retryDelayFor (1/2) = 10 := by norm_num [retryDelayFor]
  have hp : pollVerification c6Verify 6 10 (1/2) =
      ⟨some ⟨true, some "confirmed", none, none⟩, none, [10, 10, 10, 10, 10], 6⟩ := by
    decide
  have hpa : pollVerification c6VerifyWithAmount 6 10 (1/2) =
      ⟨some ⟨true, some "confirmed", none, some c6Amount⟩, none,
        [10, 10, 10, 10, 10], 6⟩ := by
    decide
  refine ⟨by rw [hp], by rw [hp], ?_, by rw [hp], ?_, ?_⟩
  · rw [hp]
    norm_num
  · simp only [handleResourceRequest, hm, hd, hp, requestStatus,
      sellerCommissionRate, Option.getD_none, Bool.not_true]
    rw [if_neg (by simp),
      if_pos (by rw [zero_sub, abs_neg, abs_of_nonneg (by norm_num)]; norm_num)]
  · have hamt : ¬(|c6Amount - 1/2 * (1 - 5/1000)| > (1 : ℚ)/100) := by
      rw [show c6Amount - 1/2 * (1 - 5/1000) = 0 by rw [c6Amount_eq]; norm_num]
      norm_num
    simp only [handleResourceRequest, hm, hd, hpa, requestStatus,
      sellerCommissionRate, Option.getD_some, Bool.not_true]
    rw [if_neg (by simp), if_neg hamt]

/-! ### Mandate cache theorems -/

/-- C9: an entry whose expires_at lies strictly in the past is deleted from
the cache and `None` is returned; an entry whose expires_at lies strictly in
the future is returned with the cache untouched. -/
theorem get_mandate_expiry (now e : ℚ) (storage : MandateStorage)
    (agentId : String) (m : MandateEntry)
    (hm : storage.lookup agentId = some m) (he : m.expires_at = some e) :
    (e < now → get_mandate now storage agentId = (none, eraseMandate storage agentId)) ∧
    (now < e → get_mandate now storage agentId = (some m, storage)) := by
  unfold get_mandate
  rw [hm]
  simp only [he, Option.getD_some]
  constructor
  · intro h
    rw [if_pos h]
  · intro h
    rw [if_neg (by exact not_lt.mpr h.le)]

/-- A cached mandate expiring at timestamp 5. -/
def storedMandate : MandateEntry :=
  ⟨some "mandate-token-1", some 5, some 20, some 20, some "2026-01-01"⟩

/-- Witness for C9: at now = 10 the entry expiring at 5 is purged; at
now = 3 it is returned unchanged. -/
theorem get_mandate_expiry_witness :
    get_mandate 10 [("agent-1", storedMandate)] "agent-1" =
      (none, eraseMandate [("agent-1", storedMandate)] "agent-1") ∧
    get_mandate 3 [("agent-1", storedMandate)] "agent-1" =
      (some storedMandate, [("agent-1", storedMandate)]) :=
  ⟨(get_mandate_expiry 10 5 [("agent-1", storedMandate)] "agent-1" storedMandate
      rfl rfl).1 (by norm_num),
   (get_mandate_expiry 3 5 [("agent-1", storedMandate)] "agent-1" storedMandate
      rfl rfl).2 (by norm_num)⟩

/-- C10: an entry without any expires_at key defaults its expiry to 0, so for
any positive current timestamp it is treated exactly like an expired entry:
deleted from the cache, with `None` returned. -/
theorem get_mandate_missing_expiry (now : ℚ) (storage : MandateStorage)
    (agentId : String) (m : MandateEntry)
    (hm : storage.lookup agentId = some m) (he : m.expires_at = none)
    (hnow : 0 < now) :
    get_mandate now storage agentId = (none, eraseMandate storage agentId) := by
  unfold get_mandate
  rw [hm]
  simp only [he, Option.getD_none]
  rw [if_pos hnow]

/-- A cached mandate saved without an expires_at field. -/
def unexpiringMandate : MandateEntry :=
  ⟨some "mandate-token-2", none, some 20, some 20, some "2026-01-01"⟩

/-- Witness for C10 at the Unix timestamp 1760227200. -/
theorem get_mandate_missing_expiry_witness :
    get_mandate 1760227200 [("agent-2", unexpiringMandate)] "agent-2" =
      (none, eraseMandate [("agent-2", unexpiringMandate)] "agent-2") :=
  get_mandate_missing_expiry 1760227200 [("agent-2", unexpiringMandate)]
    "agent-2" unexpiringMandate rfl rfl (by norm_num)

end AgentGatePay
